import Mathlib

/-!
Verification of the QR-link-generator state flow (`src/App.tsx`).

The app keeps a current selection, a bounded deduplicated history and a
persisted serialization of that history.  The two external collaborators —
the browser URL parser (`new URL`) and the QR encoder (`QRCode.toDataURL`) —
are black boxes per the specification, so they appear here as parameters:
`parseOk : String → Bool` is the success predicate of the URL parser and
`encode : String → Option String` is the encoder (`none` models a thrown
rejection).  `JSON.stringify` / `JSON.parse` are modelled at the level of the
JSON value tree, the standard string rendering being the external codec.
-/

/-- One generated QR code record (`QrCodeEntry` in `src/types`). -/
structure QrCodeEntry where
  id : String
  url : String
  dataUrl : String
  createdAt : Nat
deriving DecidableEq

/-- JSON value trees, the intermediate form of `JSON.stringify` / `JSON.parse`. -/
inductive Json where
  | str : String → Json
  | num : Nat → Json
  | arr : List Json → Json
  | obj : List (String × Json) → Json

/-- The JSON object `JSON.stringify` produces for one entry. -/
def entryToJson (e : QrCodeEntry) : Json :=
  Json.obj [("id", Json.str e.id), ("url", Json.str e.url),
            ("dataUrl", Json.str e.dataUrl), ("createdAt", Json.num e.createdAt)]

/-- `JSON.stringify(history)` at the value-tree level. -/
def serializeHistory (h : List QrCodeEntry) : Json :=
  Json.arr (h.map entryToJson)

/-- Typed read-back of one serialized entry. -/
def entryOfJson : Json → Option QrCodeEntry
  | Json.obj [("id", Json.str i), ("url", Json.str u),
              ("dataUrl", Json.str d), ("createdAt", Json.num c)] =>
      some { id := i, url := u, dataUrl := d, createdAt := c }
  | _ => none

/-- Typed read-back of a serialized entry list. -/
def entryListOfJson : List Json → Option (List QrCodeEntry)
  | [] => some []
  | j :: js =>
      match entryOfJson j, entryListOfJson js with
      | some e, some es => some (e :: es)
      | _, _ => none

/-- `JSON.parse(storedHistory)` read back as an entry list. -/
def deserializeHistory : Json → Option (List QrCodeEntry)
  | Json.arr js => entryListOfJson js
  | _ => none

/-- The in-memory state owned by the `App` component, together with the
content of the `qrHistory` storage key (`none` models an absent key). -/
structure AppState where
  urlInput : String
  currentQr : Option QrCodeEntry
  history : List QrCodeEntry
  isLoading : Bool
  error : Option String
  store : Option Json

/-- `String.prototype.trim()`: strip leading and trailing whitespace. -/
def jsTrim (s : String) : String :=
  String.mk (((s.data.dropWhile Char.isWhitespace).reverse.dropWhile Char.isWhitespace).reverse)

/-- `isValidUrl` (`src/App.tsx` lines 6-13): `new URL(urlString)` succeeds,
the parser itself being the external black box `parseOk`. -/
def isValidUrl (parseOk : String → Bool) (urlString : String) : Bool :=
  parseOk urlString

/-- The persist effect (`src/App.tsx` lines 179-185): on every history
mutation, write the serialized history under the storage key. -/
def persistHistory (s : AppState) : AppState :=
  { s with store := some (serializeHistory s.history) }

/-- The history update of `src/App.tsx` line 216:
`[newEntry, ...prevHistory.filter(item => item.url !== newEntry.url).slice(0, 19)]`. -/
def insertEntry (newEntry : QrCodeEntry) (prevHistory : List QrCodeEntry) : List QrCodeEntry :=
  newEntry :: (prevHistory.filter (fun item => item.url != newEntry.url)).take 19

/-- `handleGenerateQrCode` (`src/App.tsx` lines 187-224), the complete async
handler applied atomically.  `newId` stands for `new Date().toISOString()`
and `now` for `Date.now()`. -/
def handleGenerateQrCode (parseOk : String → Bool) (encode : String → Option String)
    (newId : String) (now : Nat) (s : AppState) : AppState :=
  if jsTrim s.urlInput = "" ∨ isValidUrl parseOk s.urlInput = false then
    { s with error := some "Please enter a valid URL (e.g., https://example.com)." }
  else
    match encode s.urlInput with
    | some dataUrl =>
        let newEntry : QrCodeEntry :=
          { id := newId, url := s.urlInput, dataUrl := dataUrl, createdAt := now }
        persistHistory
          { s with
              currentQr := some newEntry,
              history := insertEntry newEntry s.history,
              urlInput := "",
              error := none,
              isLoading := false }
    | none =>
        { s with
            error := some "Failed to generate QR code. Please try again.",
            isLoading := false }

/-- `handleSelectHistoryItem` (`src/App.tsx` lines 226-228). -/
def handleSelectHistoryItem (item : QrCodeEntry) (s : AppState) : AppState :=
  { s with currentQr := some item }

/-- `handleClearHistory` (`src/App.tsx` lines 230-235); `confirmed` is the
result of `window.confirm`.  The persist effect fires on the mutation. -/
def handleClearHistory (confirmed : Bool) (s : AppState) : AppState :=
  if confirmed then persistHistory { s with history := [], currentQr := none } else s

/-- The input field `onChange` handler (`setUrlInput`). -/
def setUrlInput (value : String) (s : AppState) : AppState :=
  { s with urlInput := value }

/-- The load effect (`src/App.tsx` lines 164-177): read the storage key once;
if present and parseable, install it as the history and select its first
entry when nonempty.  Failures are swallowed. -/
def loadHistory (s : AppState) : AppState :=
  match s.store with
  | none => s
  | some j =>
      match deserializeHistory j with
      | none => s
      | some parsedHistory =>
          { s with
              history := parsedHistory,
              currentQr :=
                match parsedHistory with
                | [] => s.currentQr
                | e :: _ => some e }

/-- The component's state after mount: `useState` initial values, then the
load effect against the given storage content. -/
def initialState (store : Option Json) : AppState :=
  loadHistory
    { urlInput := "", currentQr := none, history := [], isLoading := false,
      error := none, store := store }

/-- One user-triggered state transition of the app. -/
inductive Step : AppState → AppState → Prop where
  | generate (parseOk : String → Bool) (encode : String → Option String)
      (newId : String) (now : Nat) (s : AppState) :
      Step s (handleGenerateQrCode parseOk encode newId now s)
  | select (item : QrCodeEntry) (s : AppState) :
      Step s (handleSelectHistoryItem item s)
  | clear (confirmed : Bool) (s : AppState) :
      Step s (handleClearHistory confirmed s)
  | input (value : String) (s : AppState) :
      Step s (setUrlInput value s)

/-- The bounded-deduplicated-history invariant of the specification:
at most 20 entries and at most one entry per distinct `url`. -/
def historyInvariant (h : List QrCodeEntry) : Prop :=
  h.length ≤ 20 ∧ (h.map (fun e => e.url)).Nodup

/-- States reachable by the app: start from an absent key or from a key
holding the serialization the app itself persisted (a history satisfying
the invariant), then any sequence of user operations. -/
inductive Reachable : AppState → Prop where
  | initAbsent : Reachable (initialState none)
  | initStored (h₀ : List QrCodeEntry) (hinv : historyInvariant h₀) :
      Reachable (initialState (some (serializeHistory h₀)))
  | step {s t : AppState} : Reachable s → Step s t → Reachable t

/-! ### Serialization round-trip -/

lemma entryOfJson_entryToJson (e : QrCodeEntry) : entryOfJson (entryToJson e) = some e := rfl

lemma entryListOfJson_map (h : List QrCodeEntry) :
    entryListOfJson (h.map entryToJson) = some h := by
  induction h with
  | nil => rfl
  | cons e es ih =>
      simp [List.map_cons, entryListOfJson, entryOfJson_entryToJson, ih]

lemma deserialize_serialize (h : List QrCodeEntry) :
    deserializeHistory (serializeHistory h) = some h := by
  simp [deserializeHistory, serializeHistory, entryListOfJson_map]

/-! ### Invariant preservation helpers -/

lemma insertEntry_length_le (e : QrCodeEntry) (h : List QrCodeEntry) :
    (insertEntry e h).length ≤ 20 := by
  simp only [insertEntry, List.length_cons, List.length_take]
  omega

lemma insertEntry_nodup (e : QrCodeEntry) (h : List QrCodeEntry)
    (hnd : (h.map (fun x => x.url)).Nodup) :
    ((insertEntry e h).map (fun x => x.url)).Nodup := by
  have hsub : List.Sublist ((h.filter (fun item => item.url != e.url)).take 19) h :=
    (List.take_sublist 19 _).trans (List.filter_sublist h)
  simp only [insertEntry, List.map_cons, List.nodup_cons]
  constructor
  · intro hmem
    obtain ⟨x, hx, hxe⟩ := List.mem_map.mp hmem
    have hx' : x ∈ h.filter (fun item => item.url != e.url) := List.mem_of_mem_take hx
    have hbne := (List.mem_filter.mp hx').2
    simp [hxe] at hbne
  · exact List.Nodup.sublist (List.Sublist.map _ hsub) hnd

lemma insertEntry_invariant (e : QrCodeEntry) (h : List QrCodeEntry)
    (hinv : historyInvariant h) : historyInvariant (insertEntry e h) :=
  ⟨insertEntry_length_le e h, insertEntry_nodup e h hinv.2⟩

lemma generate_historyInvariant (parseOk : String → Bool) (encode : String → Option String)
    (newId : String) (now : Nat) (s : AppState) (hinv : historyInvariant s.history) :
    historyInvariant (handleGenerateQrCode parseOk encode newId now s).history := by
  unfold handleGenerateQrCode
  split
  · exact hinv
  · split
    · exact insertEntry_invariant _ _ hinv
    · exact hinv

lemma step_historyInvariant {s t : AppState} (hstep : Step s t)
    (hinv : historyInvariant s.history) : historyInvariant t.history := by
  cases hstep with
  | generate parseOk encode newId now s =>
      exact generate_historyInvariant parseOk encode newId now s hinv
  | select item s => simpa [handleSelectHistoryItem] using hinv
  | clear confirmed s =>
      unfold handleClearHistory
      split
      · simp [persistHistory, historyInvariant]
      · exact hinv
  | input value s => simpa [setUrlInput] using hinv

/-- Claim C1: at every reachable state the history holds at most 20 entries
and at most one entry per distinct `url`; the invariant is preserved by every
operation, including loading the history the app itself serialized. -/
theorem reachable_historyInvariant (s : AppState) (hs : Reachable s) :
    historyInvariant s.history := by
  induction hs with
  | initAbsent => simp [initialState, loadHistory, historyInvariant]
  | initStored h₀ hinv =>
      have hdes := deserialize_serialize h₀
      simpa [initialState, loadHistory, hdes] using hinv
  | step hr hstep ih => exact step_historyInvariant hstep ih

theorem reachable_historyInvariant_witness :
    historyInvariant (initialState none).history :=
  reachable_historyInvariant (initialState none) Reachable.initAbsent

/-- Claim C9: serializing any history and then deserializing the result
reproduces the same ordered list of entries, all four fields included. -/
theorem serialize_deserialize_roundtrip (h : List QrCodeEntry) :
    deserializeHistory (serializeHistory h) = some h :=
  deserialize_serialize h

/-! ### Insert contract helpers -/

lemma insertEntry_of_not_mem (e : QrCodeEntry) (h : List QrCodeEntry)
    (hmem : e.url ∉ h.map (fun x => x.url)) :
    insertEntry e h = e :: h.take 19 := by
  unfold insertEntry
  have hf : h.filter (fun item => item.url != e.url) = h := by
    apply List.filter_eq_self.mpr
    intro x hx
    exact bne_iff_ne.mpr (fun heq => hmem (List.mem_map.mpr ⟨x, hx, heq⟩))
  rw [hf]

lemma foldl_insertEntry_nodup (es : List QrCodeEntry)
    (hnd : (es.map (fun x => x.url)).Nodup) :
    es.foldl (fun acc e => insertEntry e acc) [] = es.reverse.take 20 := by
  induction es using List.reverseRecOn with
  | nil => rfl
  | append_singleton l e ih =>
      rw [List.map_append] at hnd
      have hl : (l.map (fun x => x.url)).Nodup := (List.nodup_append.mp hnd).1
      have hne : e.url ∉ l.map (fun x => x.url) := by
        intro hmem
        exact (List.nodup_append.mp hnd).2.2 hmem (by simp)
      have hne' : e.url ∉ (l.reverse.take 20).map (fun x => x.url) := by
        intro hmem
        apply hne
        have hsub : List.Sublist ((l.reverse.take 20).map (fun x => x.url))
            (l.reverse.map (fun x => x.url)) :=
          List.Sublist.map _ (List.take_sublist 20 _)
        have hmem' := hsub.subset hmem
        rw [List.map_reverse] at hmem'
        exact List.mem_reverse.mp hmem'
      rw [List.foldl_append, List.foldl_cons, List.foldl_nil, ih hl,
        insertEntry_of_not_mem e _ hne', List.take_take, List.reverse_append,
        List.reverse_singleton, List.singleton_append]
      have h20 : (20 : Nat) = 19 + 1 := rfl
      rw [h20, List.take_succ_cons]
      norm_num

lemma insertEntry_countP (e : QrCodeEntry) (h : List QrCodeEntry) :
    (insertEntry e h).countP (fun item => item.url == e.url) = 1 := by
  unfold insertEntry
  rw [List.countP_cons]
  have hz : ((h.filter (fun item => item.url != e.url)).take 19).countP
      (fun item => item.url == e.url) = 0 := by
    apply List.countP_eq_zero.mpr
    intro x hx
    have hx' := List.mem_of_mem_take hx
    have hbne := (List.mem_filter.mp hx').2
    simpa using hbne
  simp [hz]

/-- A sample run of 21 entries with pairwise distinct urls. -/
def sampleEntries : List QrCodeEntry :=
  ["a", "b", "c", "d", "e", "f", "g", "h", "i", "j", "k",
   "l", "m", "n", "o", "p", "q", "r", "s", "t", "u"].map
    (fun u => { id := u, url := u, dataUrl := u, createdAt := 0 })

/-- Claim C2: the history update removes any entry with the inserted url,
prepends the new entry and truncates to the first 20; a successful generate
makes the new entry the current selection; inserting the same url twice
leaves exactly one entry for it, at position 0, holding the latest payload;
inserting 21 distinct urls from empty leaves 20 entries with the oldest
dropped. -/
theorem insertEntry_contract :
    (∀ (e : QrCodeEntry) (h : List QrCodeEntry),
        insertEntry e h = (e :: h.filter (fun item => item.url != e.url)).take 20) ∧
    (∀ (parseOk : String → Bool) (encode : String → Option String) (newId : String)
        (now : Nat) (s : AppState) (dataUrl : String),
        jsTrim s.urlInput ≠ "" → isValidUrl parseOk s.urlInput = true →
        encode s.urlInput = some dataUrl →
        (handleGenerateQrCode parseOk encode newId now s).currentQr =
          some { id := newId, url := s.urlInput, dataUrl := dataUrl, createdAt := now } ∧
        (handleGenerateQrCode parseOk encode newId now s).history =
          insertEntry { id := newId, url := s.urlInput, dataUrl := dataUrl, createdAt := now }
            s.history) ∧
    (∀ (e₁ e₂ : QrCodeEntry) (h : List QrCodeEntry), e₁.url = e₂.url →
        (insertEntry e₂ (insertEntry e₁ h)).countP (fun item => item.url == e₂.url) = 1 ∧
        (insertEntry e₂ (insertEntry e₁ h)).head? = some e₂) ∧
    (∀ (e₀ : QrCodeEntry) (rest : List QrCodeEntry),
        (e₀ :: rest).length = 21 → ((e₀ :: rest).map (fun x => x.url)).Nodup →
        ((e₀ :: rest).foldl (fun acc e => insertEntry e acc) []).length = 20 ∧
        e₀.url ∉ ((e₀ :: rest).foldl (fun acc e => insertEntry e acc) []).map
          (fun x => x.url)) := by
  refine ⟨?_, ?_, ?_, ?_⟩
  · intro e h
    have h20 : (20 : Nat) = 19 + 1 := rfl
    rw [h20, List.take_succ_cons, insertEntry]
  · intro parseOk encode newId now s dataUrl htrim hvalid henc
    unfold handleGenerateQrCode
    rw [if_neg (by simp [htrim, hvalid])]
    rw [henc]
    exact ⟨rfl, rfl⟩
  · intro e₁ e₂ h _
    exact ⟨insertEntry_countP e₂ (insertEntry e₁ h), rfl⟩
  · intro e₀ rest hlen hnd
    have hfold := foldl_insertEntry_nodup (e₀ :: rest) hnd
    have hrlen : rest.length = 20 := by simpa using hlen
    have hrev : (e₀ :: rest).reverse = rest.reverse ++ [e₀] := by
      simp [List.reverse_cons]
    have htake : (e₀ :: rest).reverse.take 20 = rest.reverse := by
      rw [hrev]
      have h20 : rest.reverse.length = 20 := by simpa using hrlen
      rw [← h20, List.take_left]
    rw [hfold, htake]
    constructor
    · simpa using hrlen
    · have hnotmem : e₀.url ∉ rest.map (fun x => x.url) := by
        rw [List.map_cons, List.nodup_cons] at hnd
        exact hnd.1
      intro hmem
      apply hnotmem
      rw [List.map_reverse] at hmem
      exact List.mem_reverse.mp hmem

theorem insertEntry_contract_witness :
    sampleEntries.length = 21 ∧
    (sampleEntries.map (fun x => x.url)).Nodup ∧
    (sampleEntries.foldl (fun acc e => insertEntry e acc) []).length = 20 := by
  refine ⟨by decide, by decide, ?_⟩
  have h := insertEntry_contract.2.2.2
    { id := "a", url := "a", dataUrl := "a", createdAt := 0 }
    (sampleEntries.tail) (by decide) (by decide)
  exact h.1

/-- A state holding a rejected input, as in the spec's example `"not a url"`. -/
def invalidState : AppState :=
  { urlInput := "not a url", currentQr := none, history := [], isLoading := false,
    error := none, store := none }

/-- A state holding the spec's example valid input `"https://example.com"`. -/
def exampleState : AppState :=
  { urlInput := "https://example.com", currentQr := none, history := [], isLoading := false,
    error := none, store := none }

/-- Claim C3: when the input fails URL validation, generate leaves history,
current selection, the loading flag and the store unchanged and only sets
the validation error. -/
theorem generate_invalid_frame (parseOk : String → Bool) (encode : String → Option String)
    (newId : String) (now : Nat) (s : AppState)
    (hbad : jsTrim s.urlInput = "" ∨ isValidUrl parseOk s.urlInput = false) :
    (handleGenerateQrCode parseOk encode newId now s).history = s.history ∧
    (handleGenerateQrCode parseOk encode newId now s).currentQr = s.currentQr ∧
    (handleGenerateQrCode parseOk encode newId now s).isLoading = s.isLoading ∧
    (handleGenerateQrCode parseOk encode newId now s).store = s.store ∧
    (handleGenerateQrCode parseOk encode newId now s).error =
      some "Please enter a valid URL (e.g., https://example.com)." := by
  unfold handleGenerateQrCode
  rw [if_pos hbad]
  exact ⟨rfl, rfl, rfl, rfl, rfl⟩

theorem generate_invalid_frame_witness :
    isValidUrl (fun _ => false) invalidState.urlInput = false ∧
    (handleGenerateQrCode (fun _ => false) (fun _ => none) "t0" 0 invalidState).history =
      invalidState.history := by
  refine ⟨rfl, ?_⟩
  exact (generate_invalid_frame (fun _ => false) (fun _ => none) "t0" 0 invalidState
    (Or.inr rfl)).1

/-- Claim C4: for a valid URL `S`, after a successful generate the current
selection's url and the head of the history both equal `S`. -/
theorem generate_success_selection (parseOk : String → Bool) (encode : String → Option String)
    (newId : String) (now : Nat) (s : AppState) (S dataUrl : String)
    (hin : s.urlInput = S) (htrim : jsTrim S ≠ "") (hvalid : isValidUrl parseOk S = true)
    (henc : encode S = some dataUrl) :
    (handleGenerateQrCode parseOk encode newId now s).currentQr.map (fun e => e.url) =
      some S ∧
    (handleGenerateQrCode parseOk encode newId now s).history.head?.map (fun e => e.url) =
      some S := by
  subst hin
  unfold handleGenerateQrCode
  rw [if_neg (by simp [htrim, hvalid])]
  rw [henc]
  exact ⟨rfl, rfl⟩

theorem generate_success_selection_witness :
    (handleGenerateQrCode (fun _ => true) (fun _ => some "img") "t0" 7
      exampleState).currentQr.map (fun e => e.url) = some "https://example.com" :=
  (generate_success_selection (fun _ => true) (fun _ => some "img") "t0" 7 exampleState
    "https://example.com" "img" rfl (by decide) rfl rfl).1

/-- Claim C5: when the encoder call fails, generate sets exactly the message
"Failed to generate QR code. Please try again." and leaves the prior current
selection, history and store untouched. -/
theorem generate_encoder_failure (parseOk : String → Bool) (encode : String → Option String)
    (newId : String) (now : Nat) (s : AppState)
    (htrim : jsTrim s.urlInput ≠ "") (hvalid : isValidUrl parseOk s.urlInput = true)
    (henc : encode s.urlInput = none) :
    (handleGenerateQrCode parseOk encode newId now s).error =
      some "Failed to generate QR code. Please try again." ∧
    (handleGenerateQrCode parseOk encode newId now s).currentQr = s.currentQr ∧
    (handleGenerateQrCode parseOk encode newId now s).history = s.history ∧
    (handleGenerateQrCode parseOk encode newId now s).store = s.store := by
  unfold handleGenerateQrCode
  rw [if_neg (by simp [htrim, hvalid])]
  rw [henc]
  exact ⟨rfl, rfl, rfl, rfl⟩

theorem generate_encoder_failure_witness :
    (handleGenerateQrCode (fun _ => true) (fun _ => none) "t0" 7 exampleState).error =
      some "Failed to generate QR code. Please try again." :=
  (generate_encoder_failure (fun _ => true) (fun _ => none) "t0" 7 exampleState
    (by decide) rfl rfl).1

/-- Claim C6: a confirmed clear empties the history, clears the current
selection and persists the empty history under the storage key; an
unconfirmed clear changes nothing. -/
theorem clearHistory_contract (s : AppState) :
    (handleClearHistory true s).history = [] ∧
    (handleClearHistory true s).currentQr = none ∧
    (handleClearHistory true s).store = some (serializeHistory []) ∧
    handleClearHistory false s = s :=
  ⟨rfl, rfl, rfl, rfl⟩

/-- Claim C7: the generate guard accepts the input exactly when it is
non-empty after trimming and the URL parser accepts it. -/
theorem validator_accepts_iff (parseOk : String → Bool) (s : String) :
    ¬ (jsTrim s = "" ∨ isValidUrl parseOk s = false) ↔
      (jsTrim s ≠ "" ∧ parseOk s = true) := by
  unfold isValidUrl
  push_neg
  constructor
  · exact fun h => ⟨h.1, by simpa using h.2⟩
  · exact fun h => ⟨h.1, by simp [h.2]⟩

/-- Claim C8 as frozen is false: on invalid input the code sets the message
"Please enter a valid URL (e.g., https://example.com).", which is not the
string "Please enter a valid URL". -/
theorem validation_message_counterexample :
    (handleGenerateQrCode (fun _ => false) (fun _ => none) "t0" 0 invalidState).error =
      some "Please enter a valid URL (e.g., https://example.com)." ∧
    ¬ ((handleGenerateQrCode (fun _ => false) (fun _ => none) "t0" 0 invalidState).error =
      some "Please enter a valid URL") := by
  exact ⟨rfl, by decide⟩

/-- Claim C8 amended: for every input failing validation, the user-visible
message is exactly "Please enter a valid URL (e.g., https://example.com).". -/
theorem validation_message_exact (parseOk : String → Bool) (encode : String → Option String)
    (newId : String) (now : Nat) (s : AppState)
    (hbad : jsTrim s.urlInput = "" ∨ isValidUrl parseOk s.urlInput = false) :
    (handleGenerateQrCode parseOk encode newId now s).error =
      some "Please enter a valid URL (e.g., https://example.com)." := by
  unfold handleGenerateQrCode
  rw [if_pos hbad]

theorem validation_message_exact_witness :
    (handleGenerateQrCode (fun _ => false) (fun _ => none) "t1" 0 invalidState).error =
      some "Please enter a valid URL (e.g., https://example.com)." :=
  validation_message_exact (fun _ => false) (fun _ => none) "t1" 0 invalidState (Or.inr rfl)

/-- Claim C10: a successful generate resets the URL input field to the
empty string; a validation failure or an encoder failure leaves it
unchanged. -/
theorem generate_urlInput_effect (parseOk : String → Bool) (encode : String → Option String)
    (newId : String) (now : Nat) (s : AppState) :
    (∀ dataUrl : String, jsTrim s.urlInput ≠ "" → isValidUrl parseOk s.urlInput = true →
      encode s.urlInput = some dataUrl →
      (handleGenerateQrCode parseOk encode newId now s).urlInput = "") ∧
    ((jsTrim s.urlInput = "" ∨ isValidUrl parseOk s.urlInput = false) →
      (handleGenerateQrCode parseOk encode newId now s).urlInput = s.urlInput) ∧
    (jsTrim s.urlInput ≠ "" → isValidUrl parseOk s.urlInput = true →
      encode s.urlInput = none →
      (handleGenerateQrCode parseOk encode newId now s).urlInput = s.urlInput) := by
  refine ⟨?_, ?_, ?_⟩
  · intro dataUrl htrim hvalid henc
    unfold handleGenerateQrCode
    rw [if_neg (by simp [htrim, hvalid])]
    rw [henc]
    rfl
  · intro hbad
    unfold handleGenerateQrCode
    rw [if_pos hbad]
  · intro htrim hvalid henc
    unfold handleGenerateQrCode
    rw [if_neg (by simp [htrim, hvalid])]
    rw [henc]

theorem generate_urlInput_effect_witness :
    (handleGenerateQrCode (fun _ => true) (fun _ => some "img") "t2" 7
      exampleState).urlInput = "" :=
  (generate_urlInput_effect (fun _ => true) (fun _ => some "img") "t2" 7 exampleState).1
    "img" (by decide) rfl rfl
